import Mathlib

/-!
Verification of the size-based cap controller (`CapLevelController`):
a shallow embedding of its data model and operations, followed by
theorems settling the specification's claims about it.

Conventions of the embedding:
* JS numbers that the controller compares and multiplies are modelled as `Int`
  (all claim-relevant comparisons are exact).
* `undefined` produced by an out-of-range array read is modelled as `none`;
  a JS property access on `undefined` raises, modelled with `Except JsError`.
* `Number.POSITIVE_INFINITY` (the initial value of the controller's
  `autoLevelCapping` field) is modelled as `none : Option Int`;
  `some n` is a finite published cap.
-/

namespace CapLevel

/-- One encoding rung (`Level`): the three fields the controller reads. -/
structure Level where
  width : Int
  height : Int
  bitrate : Int
deriving DecidableEq

/-- A snapshot placed in the exclusion set (`RestrictedLevel` in the source). -/
structure RestrictedLevel where
  width : Int
  height : Int
  bitrate : Int
deriving DecidableEq

/-- A width/height pair (the controller's `clientRect` cache entries). -/
structure Rect where
  width : Int
  height : Int
deriving DecidableEq

/-- The bounding box a media element reports (`getBoundingClientRect`). -/
structure BoundingRect where
  width : Int
  height : Int
  left : Int
  right : Int
  top : Int
  bottom : Int
deriving DecidableEq

/-- The attached video element: its measured box and its intrinsic
`width`/`height` attributes (the zero-size fallback reads them). -/
structure MediaElement where
  rect : BoundingRect
  widthAttr : Int
  heightAttr : Int
deriving DecidableEq

/-- The slice of the `hls` master object the controller reads and writes:
the rung list, the external hard ceiling (`maxLevelCapping`, −1 = unset)
and the published cap (`hls.autoLevelCapping`). -/
structure HlsState where
  levels : List Level
  maxLevelCapping : Int
  autoLevelCapping : Int
deriving DecidableEq

/-- The controller's own state.  `autoLevelCapping` is the controller's
record of the previously published cap (`none` models
`Number.POSITIVE_INFINITY`); `streamController` records whether the optional
stream-switch collaborator is registered; `ignoreDensity` models the
`ignoreDevicePixelRatio` config flag and `densityFactor` the environment's
`devicePixelRatio` (`none` models the read throwing). -/
structure CapState where
  hls : HlsState
  autoLevelCapping : Option Int
  firstLevel : Int
  media : Option MediaElement
  restrictedLevels : List RestrictedLevel
  clientRect : Option Rect
  streamController : Bool
  ignoreDensity : Bool
  densityFactor : Option Int
deriving DecidableEq

/-- Payload of the surface-attached notification: either a video element or
some other kind of surface (`data.media instanceof HTMLVideoElement` fails). -/
inductive AttachedMedia where
  | videoElement (m : MediaElement)
  | nonVideo
deriving DecidableEq

/-- A JavaScript runtime error (property access on `undefined`). -/
inductive JsError where
  | typeError
deriving DecidableEq

/-! ### The pure selector -/

/-- The size test of the selection loop:
`level.width >= width || level.height >= height`. -/
def covers (width height : Int) (l : Level) : Bool :=
  decide (l.width ≥ width) || decide (l.height ≥ height)

/-- `atGreatestBandwidth` from the source: a rung is the
greatest-bandwidth representative of its resolution tier when there is no
next rung or the next rung has different dimensions. -/
def atGreatestBandwidth (curLevel : Level) (nextLevel : Option Level) : Bool :=
  match nextLevel with
  | none => true
  | some nl => decide (curLevel.width ≠ nl.width) || decide (curLevel.height ≠ nl.height)

/-- The scan of `getMaxLevelByMediaSize`: position of the first rung that
covers the target and is at greatest bandwidth; `none` when the loop runs
through without breaking. -/
def gmlLoop (width height : Int) : List Level → Option Nat
  | [] => none
  | l :: rest =>
    if covers width height l && atGreatestBandwidth l rest.head? then some 0
    else (gmlLoop width height rest).map (· + 1)

/-- `CapLevelController.getMaxLevelByMediaSize`: −1 on an empty list,
otherwise the first qualifying position, defaulting to the last index when
no rung qualifies. -/
def getMaxLevelByMediaSize (levels : List Level) (width height : Int) : Int :=
  if levels.isEmpty then -1
  else
    match gmlLoop width height levels with
    | some i => (i : Int)
    | none => (levels.length : Int) - 1

/-- `isLevelAllowed` on a defined level: the level's exact
(bitrate, width, height) triple is not in the exclusion set. -/
def isLevelAllowed (restrictedLevels : List RestrictedLevel) (level : Level) : Bool :=
  !(restrictedLevels.any fun r =>
    decide (level.bitrate = r.bitrate) && decide (level.width = r.width) &&
      decide (level.height = r.height))

/-- The index-aware filter of `getMaxLevel` (`levels.filter ((level, index) => ...)`),
unfolded with an explicit position counter. -/
def validLevelsAux (restricted : List RestrictedLevel) (capLevelIndex : Int) :
    List Level → Nat → List Level
  | [], _ => []
  | l :: rest, i =>
    if isLevelAllowed restricted l && decide ((i : Int) ≤ capLevelIndex) then
      l :: validLevelsAux restricted capLevelIndex rest (i + 1)
    else validLevelsAux restricted capLevelIndex rest (i + 1)

/-- The candidate list of `getMaxLevel`: rungs at position ≤ the ceiling whose
triple is not excluded. -/
def validLevels (levels : List Level) (restricted : List RestrictedLevel)
    (capLevelIndex : Int) : List Level :=
  validLevelsAux restricted capLevelIndex levels 0

/-- The spec's `selectCap` contract as the source realises it: the filter of
`getMaxLevel` composed with the static `getMaxLevelByMediaSize` (the external
ceiling clamp and the measurement are outside this contract). -/
def selectCap (levels : List Level) (excl : List RestrictedLevel)
    (ceiling width height : Int) : Int :=
  if levels.isEmpty then -1
  else getMaxLevelByMediaSize (validLevels levels excl ceiling) width height

/-- The qualifying condition of the scan, read off at position `k` of a list:
the rung at `k` covers the target and is at greatest bandwidth relative to
the rung at `k + 1`. -/
def condAt (width height : Int) (xs : List Level) (k : Nat) : Bool :=
  match xs[k]? with
  | none => false
  | some l => covers width height l && atGreatestBandwidth l xs[k + 1]?

/-! ### The spec's reading of the selector, for refinement comparison -/

/-- The index-aware filter keeping each candidate's original index. -/
def validIndexedAux (restricted : List RestrictedLevel) (capLevelIndex : Int) :
    List Level → Nat → List (Nat × Level)
  | [], _ => []
  | l :: rest, i =>
    if isLevelAllowed restricted l && decide ((i : Int) ≤ capLevelIndex) then
      (i, l) :: validIndexedAux restricted capLevelIndex rest (i + 1)
    else validIndexedAux restricted capLevelIndex rest (i + 1)

/-- Scan of the spec's reading: returns the ORIGINAL index carried by the
first qualifying candidate. -/
def specLoop (width height : Int) : List (Nat × Level) → Option Nat
  | [] => none
  | (i, l) :: rest =>
    if covers width height l && atGreatestBandwidth l (rest.head?.map Prod.snd) then
      some i
    else specLoop width height rest

/-- Modelled from the spec (§4.1, step 3): like the source's selector, but
the position of the first qualifying candidate is "mapped back to its index
in the original (unfiltered) list".  Defined only to be compared with
`selectCap`, which is translated from the source. -/
def selectCapSpecced (levels : List Level) (excl : List RestrictedLevel)
    (ceiling width height : Int) : Int :=
  let cands := validIndexedAux excl ceiling levels 0
  if cands.isEmpty then -1
  else
    match specLoop width height cands with
    | some origIdx => (origIdx : Int)
    | none => (cands.length : Int) - 1

/-! ### Surface measurement and the stateful operations -/

/-- JS `a || b` on numbers: `a` unless `a` is falsy (zero). -/
def jsOr (a b : Int) : Int :=
  if a = 0 then b else a

/-- The fresh measurement `getDimensions` performs when its cache is empty:
width/height of the media's bounding box, with the source's fallback to
`right - left`, the intrinsic attributes, then 0, when both report zero;
`{0, 0}` when no media is attached. -/
def boundsRect : Option MediaElement → Rect
  | none => ⟨0, 0⟩
  | some media =>
    if media.rect.width = 0 ∧ media.rect.height = 0 then
      ⟨jsOr (media.rect.right - media.rect.left) (jsOr media.widthAttr 0),
        jsOr (media.rect.bottom - media.rect.top) (jsOr media.heightAttr 0)⟩
    else ⟨media.rect.width, media.rect.height⟩

/-- `contentScaleFactor`: 1 when the config ignores display density,
otherwise the environment's density, with 1 when reading it throws. -/
def contentScaleFactor (s : CapState) : Int :=
  if s.ignoreDensity then 1
  else
    match s.densityFactor with
    | some p => p
    | none => 1

/-- `getDimensions`: return the cached box if present; otherwise measure and
cache the result (the cache is written even when no media is attached). -/
def getDimensions (s : CapState) : Rect × CapState :=
  match s.clientRect with
  | some r => (r, s)
  | none =>
    let b := boundsRect s.media
    (b, { s with clientRect := some b })

/-- The `mediaWidth` getter: measured width times the density factor. -/
def mediaWidth (s : CapState) : Int × CapState :=
  let p := getDimensions s
  (p.1.width * contentScaleFactor s, p.2)

/-- The `mediaHeight` getter: measured height times the density factor. -/
def mediaHeight (s : CapState) : Int × CapState :=
  let p := getDimensions s
  (p.1.height * contentScaleFactor s, p.2)

/-- `getMaxLevel`: −1 on an empty rung list; otherwise filter the rungs,
invalidate the measurement cache, re-measure, select by media size, and clamp
with the external `maxLevelCapping` ceiling when that is set (≠ −1).
Returns the value together with the resulting controller state. -/
def getMaxLevel (s : CapState) (capLevelIndex : Int) : Int × CapState :=
  if s.hls.levels.isEmpty then (-1, s)
  else
    let valid := validLevels s.hls.levels s.restrictedLevels capLevelIndex
    let s1 : CapState := { s with clientRect := none }
    let pw := mediaWidth s1
    let ph := mediaHeight pw.2
    let m := getMaxLevelByMediaSize valid pw.1 ph.1
    if s.hls.maxLevelCapping ≠ -1 then (min s.hls.maxLevelCapping m, ph.2)
    else (m, ph.2)

/-- JS `a > b` where `b` may be `Number.POSITIVE_INFINITY` (`none`). -/
def jsGtInf (a : Int) : Option Int → Bool
  | none => false
  | some b => decide (b < a)

/-- The value `detectPlayerSize` publishes on an active tick: `getMaxLevel`
at ceiling (rung count − 1).  Pure: `getMaxLevel` empties the measurement
cache before reading it, so the value does not depend on the cache. -/
def computedCap (s : CapState) : Int :=
  (getMaxLevel s ((s.hls.levels.length : Int) - 1)).1

/-- One timer tick (`detectPlayerSize`).  Returns the resulting state and
whether `streamController.nextLevelSwitch()` was invoked.  The guard
evaluates `media`, then the `mediaHeight` getter, then the `mediaWidth`
getter (each getter may fill the measurement cache); on an active tick the
new cap is written to `hls.autoLevelCapping` (published) before the
notification fires, and the controller's record of the previous cap is
updated last. -/
def detectPlayerSize (s : CapState) : CapState × Bool :=
  match s.media with
  | none => (s, false)
  | some _ =>
    let ph := mediaHeight s
    if ph.1 > 0 then
      let pw := mediaWidth ph.2
      if pw.1 > 0 then
        if pw.2.hls.levels.length = 0 then (pw.2, false)
        else
          let pc := getMaxLevel pw.2 ((pw.2.hls.levels.length : Int) - 1)
          let s4 : CapState := { pc.2 with hls := { pc.2.hls with autoLevelCapping := pc.1 } }
          let emit := jsGtInf pc.1 s4.autoLevelCapping && s4.streamController
          ({ s4 with autoLevelCapping := some pc.1 }, emit)
      else (pw.2, false)
    else (ph.2, false)

/-- Iterated timer ticks (the recurring 1-second driver). -/
def ticks : Nat → CapState → CapState
  | 0, s => s
  | n + 1, s => ticks n (detectPlayerSize s).1

/-- `onMediaAttaching`: store the surface only when it is a video element
(`data.media instanceof HTMLVideoElement ? data.media : null`) and
invalidate the measurement cache. -/
def onMediaAttaching (s : CapState) (media : AttachedMedia) : CapState :=
  { s with
    media := match media with
      | AttachedMedia.videoElement m => some m
      | AttachedMedia.nonVideo => none,
    clientRect := none }

/-! ### Exclusion recording, with JS error semantics -/

/-- JS array read `levels[i]`: `undefined` (`none`) when out of range. -/
def jsIndex (levels : List Level) (i : Int) : Option Level :=
  if 0 ≤ i then levels[i.toNat]? else none

/-- JS property access on a possibly-`undefined` level: raises a
`TypeError` on `undefined`. -/
def jsGet (v : Option Level) (f : Level → Int) : Except JsError Int :=
  match v with
  | none => Except.error JsError.typeError
  | some l => Except.ok (f l)

/-- `Array.prototype.some` with a callback that may raise: the callback is
not invoked on an empty array, and evaluation stops at the first `true` or
the first raise. -/
def someM {α : Type} : List α → (α → Except JsError Bool) → Except JsError Bool
  | [], _ => Except.ok false
  | x :: xs, p => do
    let b ← p x
    if b then Except.ok true else someM xs p

/-- `isLevelAllowed` as executed on a possibly-`undefined` argument: each
comparison reads the level's fields, which raises when it is `undefined`. -/
def isLevelAllowedJs (restricted : List RestrictedLevel) (level : Option Level) :
    Except JsError Bool := do
  let b ← someM restricted fun r =>
    match level with
    | none => Except.error JsError.typeError
    | some l =>
      Except.ok (decide (l.bitrate = r.bitrate) && decide (l.width = r.width) &&
        decide (l.height = r.height))
  Except.ok (!b)

/-- `onFpsDropLevelCapping`: look up the dropped rung; when its triple is not
already excluded, push a snapshot of it.  The field reads used to build the
snapshot raise when the lookup produced `undefined`. -/
def onFpsDropLevelCapping (levels : List Level) (restricted : List RestrictedLevel)
    (droppedLevel : Int) : Except JsError (List RestrictedLevel) := do
  let level := jsIndex levels droppedLevel
  let allowed ← isLevelAllowedJs restricted level
  if allowed then
    let b ← jsGet level Level.bitrate
    let h ← jsGet level Level.height
    let w ← jsGet level Level.width
    Except.ok (restricted ++ [⟨w, h, b⟩])
  else Except.ok restricted

/-- The exclusion set after one drop notification: when the handler raises,
the raise happens before the push, so the set keeps its old value. -/
def recordDropState (levels : List Level) (restricted : List RestrictedLevel)
    (droppedLevel : Int) : List RestrictedLevel :=
  match onFpsDropLevelCapping levels restricted droppedLevel with
  | Except.ok rl => rl
  | Except.error _ => restricted

/-- The exclusion set after a sequence of drop notifications. -/
def recordDropsState (levels : List Level) : List Int → List RestrictedLevel →
    List RestrictedLevel
  | [], rl => rl
  | i :: is, rl => recordDropsState levels is (recordDropState levels rl i)

/-! ### Concrete fixture states used by counterexamples and witnesses -/

/-- A controller state with a stale cached measurement (100×100) while the
attached media measures 200×200; one rung. -/
def stateC3 : CapState :=
  ⟨⟨[⟨100, 100, 1000⟩], -1, 0⟩, some 0, 0, some ⟨⟨200, 200, 0, 200, 0, 200⟩, 0, 0⟩,
    [], some ⟨100, 100⟩, true, true, none⟩

/-- A controller state with four rungs, external ceiling `maxLevelCapping = 1`
and a 200×200 surface (so the size-computed cap is 3). -/
def stateC7 : CapState :=
  ⟨⟨[⟨10, 10, 1⟩, ⟨20, 20, 2⟩, ⟨30, 30, 3⟩, ⟨40, 40, 4⟩], 1, 0⟩, some 0, 0,
    some ⟨⟨200, 200, 0, 200, 0, 200⟩, 0, 0⟩, [], none, true, true, none⟩

/-- A controller state whose tick raises the cap from 0 to 1 with a
stream-switch collaborator registered. -/
def stateC8 : CapState :=
  ⟨⟨[⟨100, 100, 500⟩, ⟨300, 300, 1000⟩], -1, 0⟩, some 0, 0,
    some ⟨⟨200, 200, 0, 200, 0, 200⟩, 0, 0⟩, [], none, true, true, none⟩

/-- A controller state whose attached media measures 0×0 and whose
measurement cache is empty. -/
def stateC9 : CapState :=
  ⟨⟨[⟨100, 100, 1000⟩], -1, 7⟩, some 7, 0, some ⟨⟨0, 0, 0, 0, 0, 0⟩, 0, 0⟩,
    [], none, true, true, none⟩

/-! ### Helper lemmas on the selection scan -/

lemma condAt_cons_zero (w h : Int) (x : Level) (rest : List Level) :
    condAt w h (x :: rest) 0 = (covers w h x && atGreatestBandwidth x rest.head?) := by
  cases rest <;> simp [condAt]

lemma gmlLoop_cons_true (w h : Int) (x : Level) (rest : List Level)
    (hc : (covers w h x && atGreatestBandwidth x rest.head?) = true) :
    gmlLoop w h (x :: rest) = some 0 := by
  simp only [gmlLoop, hc]
  simp

lemma gmlLoop_cons_false (w h : Int) (x : Level) (rest : List Level)
    (hc : (covers w h x && atGreatestBandwidth x rest.head?) = false) :
    gmlLoop w h (x :: rest) = (gmlLoop w h rest).map (· + 1) := by
  simp only [gmlLoop, hc]
  simp

lemma condAt_cons_succ (w h : Int) (x : Level) (rest : List Level) (k : Nat) :
    condAt w h (x :: rest) (k + 1) = condAt w h rest k := by
  simp only [condAt, List.getElem?_cons_succ]

lemma gmlLoop_sound (w h : Int) (xs : List Level) :
    ∀ k, gmlLoop w h xs = some k → condAt w h xs k = true := by
  induction xs with
  | nil => intro k hk; simp [gmlLoop] at hk
  | cons x rest ih =>
    intro k hk
    simp only [gmlLoop] at hk
    cases hc : (covers w h x && atGreatestBandwidth x rest.head?)
    · rw [hc] at hk
      simp only [Bool.false_eq_true, if_false] at hk
      obtain ⟨k2, hk2, rfl⟩ := Option.map_eq_some'.mp hk
      rw [condAt_cons_succ]
      exact ih k2 hk2
    · rw [hc] at hk
      simp only [if_true] at hk
      obtain rfl : (0 : Nat) = k := by simpa using hk
      rw [condAt_cons_zero]
      exact hc

lemma gmlLoop_min (w h : Int) (xs : List Level) :
    ∀ k, gmlLoop w h xs = some k → ∀ j, j < k → condAt w h xs j = false := by
  induction xs with
  | nil => intro k hk; simp [gmlLoop] at hk
  | cons x rest ih =>
    intro k hk j hj
    simp only [gmlLoop] at hk
    cases hc : (covers w h x && atGreatestBandwidth x rest.head?)
    · rw [hc] at hk
      simp only [Bool.false_eq_true, if_false] at hk
      obtain ⟨k2, hk2, rfl⟩ := Option.map_eq_some'.mp hk
      cases j with
      | zero => rw [condAt_cons_zero]; exact hc
      | succ j2 =>
        rw [condAt_cons_succ]
        exact ih k2 hk2 j2 (by omega)
    · rw [hc] at hk
      simp only [if_true] at hk
      obtain rfl : (0 : Nat) = k := by simpa using hk
      omega

lemma gmlLoop_complete (w h : Int) (xs : List Level) :
    ∀ k, condAt w h xs k = true → ∃ j, gmlLoop w h xs = some j := by
  induction xs with
  | nil => intro k hk; simp [condAt] at hk
  | cons x rest ih =>
    intro k hk
    cases hc : (covers w h x && atGreatestBandwidth x rest.head?)
    · cases k with
      | zero =>
        rw [condAt_cons_zero, hc] at hk
        exact absurd hk (by simp)
      | succ k2 =>
        rw [condAt_cons_succ] at hk
        obtain ⟨j, hj⟩ := ih k2 hk
        exact ⟨j + 1, by rw [gmlLoop_cons_false w h x rest hc, hj]; rfl⟩
    · exact ⟨0, gmlLoop_cons_true w h x rest hc⟩

lemma gmlLoop_of_covers (w h : Int) (xs : List Level) :
    (∃ l ∈ xs, covers w h l = true) → ∃ j, gmlLoop w h xs = some j := by
  induction xs with
  | nil => rintro ⟨l, hl, _⟩; simp at hl
  | cons x rest ih =>
    rintro ⟨l, hl, hcov⟩
    cases hc : (covers w h x && atGreatestBandwidth x rest.head?)
    · rcases List.mem_cons.mp hl with rfl | hmem
      · have hgb : atGreatestBandwidth l rest.head? = false := by
          cases hgb : atGreatestBandwidth l rest.head?
          · rfl
          · rw [hcov, hgb] at hc; simp at hc
        cases rest with
        | nil => simp [atGreatestBandwidth] at hgb
        | cons y rest2 =>
          have hsim : l.width = y.width ∧ l.height = y.height := by
            simpa [atGreatestBandwidth] using hgb
          have hcovy : covers w h y = true := by
            simp only [covers, Bool.or_eq_true, decide_eq_true_eq] at hcov ⊢
            rcases hcov with h1 | h1
            · exact Or.inl (hsim.1 ▸ h1)
            · exact Or.inr (hsim.2 ▸ h1)
          obtain ⟨j, hj⟩ := ih ⟨y, List.mem_cons_self y rest2, hcovy⟩
          exact ⟨j + 1, by rw [gmlLoop_cons_false w h l (y :: rest2) hc, hj]; rfl⟩
      · obtain ⟨j, hj⟩ := ih ⟨l, hmem, hcov⟩
        exact ⟨j + 1, by rw [gmlLoop_cons_false w h x rest hc, hj]; rfl⟩
    · exact ⟨0, gmlLoop_cons_true w h x rest hc⟩

lemma gmlLoop_none_of_no_cover (w h : Int) (xs : List Level)
    (hnc : ∀ l ∈ xs, covers w h l = false) : gmlLoop w h xs = none := by
  induction xs with
  | nil => rfl
  | cons x rest ih =>
    have hx : covers w h x = false := hnc x (List.mem_cons_self x rest)
    have hrest := ih fun l hl => hnc l (List.mem_cons_of_mem x hl)
    simp [gmlLoop, hx, hrest]

lemma condAt_covers (w h : Int) (xs : List Level) (k : Nat)
    (hk : condAt w h xs k = true) :
    ∃ l, xs[k]? = some l ∧ covers w h l = true := by
  unfold condAt at hk
  cases hg : xs[k]? with
  | none => rw [hg] at hk; simp at hk
  | some l =>
    rw [hg] at hk
    simp only [Bool.and_eq_true] at hk
    exact ⟨l, rfl, hk.1⟩

lemma isLevelAllowed_nil (l : Level) : isLevelAllowed [] l = true := rfl

lemma validLevelsAux_all (c : Int) :
    ∀ (xs : List Level) (i : Nat), ((i : Int) + xs.length - 1 ≤ c) →
      validLevelsAux [] c xs i = xs := by
  intro xs
  induction xs with
  | nil => intro i _; rfl
  | cons x rest ih =>
    intro i hi
    have h1 : ((i : Int) ≤ c) := by
      simp only [List.length_cons] at hi
      push_cast at hi
      omega
    have h2 := ih (i + 1) (by
      simp only [List.length_cons] at hi
      push_cast at hi ⊢
      omega)
    simp [validLevelsAux, isLevelAllowed_nil, h1, h2]

lemma validLevels_no_restriction (levels : List Level) :
    validLevels levels [] ((levels.length : Int) - 1) = levels := by
  unfold validLevels
  exact validLevelsAux_all _ levels 0 (by push_cast; omega)

lemma selectCap_eq_of_gmlLoop_some (levels : List Level) (excl : List RestrictedLevel)
    (ceiling w h : Int) (j : Nat)
    (hlne : levels ≠ []) (hj : gmlLoop w h (validLevels levels excl ceiling) = some j) :
    selectCap levels excl ceiling w h = (j : Int) := by
  have hcne : (validLevels levels excl ceiling).isEmpty = false := by
    cases hx : validLevels levels excl ceiling with
    | nil => rw [hx] at hj; simp [gmlLoop] at hj
    | cons a t => rfl
  unfold selectCap getMaxLevelByMediaSize
  rw [if_neg (by simp [hlne]), hcne, hj]
  simp

/-! ### Claim theorems: the selector -/

/-- C1, counterexample.  Rung list `[640×360@500k, 1280×720@1500k]` with the
first rung's triple excluded, ceiling 1, target 200×200: the only candidate
is the second rung, whose index in the original list is 1 — the index the
claim says is returned (`selectCapSpecced`, the spec's words, gives 1) — but
the code returns 0, the candidate's position in the filtered list. -/
theorem selectCap_not_mapped_back :
    selectCap [⟨640, 360, 500000⟩, ⟨1280, 720, 1500000⟩] [⟨640, 360, 500000⟩] 1 200 200 = 0 ∧
    selectCapSpecced [⟨640, 360, 500000⟩, ⟨1280, 720, 1500000⟩] [⟨640, 360, 500000⟩] 1 200 200 = 1 ∧
    (0 : Int) ≠ 1 := by
  refine ⟨by decide, by decide, by decide⟩

/-- C1, amended: `selectCap` returns the position of the first qualifying
candidate WITHIN the filtered candidate list (least position whose rung
covers the target and is the greatest-bandwidth representative of its tier);
that position is not mapped back to the original unfiltered list. -/
theorem selectCap_first_qualifying_position (levels : List Level)
    (excl : List RestrictedLevel) (ceiling w h : Int) (k0 : Nat)
    (h0 : condAt w h (validLevels levels excl ceiling) k0 = true) :
    ∃ k : Nat, selectCap levels excl ceiling w h = (k : Int) ∧
      condAt w h (validLevels levels excl ceiling) k = true ∧
      ∀ j, j < k → condAt w h (validLevels levels excl ceiling) j = false := by
  obtain ⟨j, hj⟩ := gmlLoop_complete w h (validLevels levels excl ceiling) k0 h0
  have hlne : levels ≠ [] := by
    intro hnil
    rw [hnil] at h0
    simp [validLevels, validLevelsAux, condAt] at h0
  exact ⟨j, selectCap_eq_of_gmlLoop_some levels excl ceiling w h j hlne hj,
    gmlLoop_sound w h _ j hj, gmlLoop_min w h _ j hj⟩

/-- C1 witness: the amended theorem applied at the counterexample's input:
the first qualifying candidate sits at position 0 of the filtered list. -/
theorem selectCap_first_qualifying_position_witness :
    ∃ k : Nat,
      selectCap [⟨640, 360, 500000⟩, ⟨1280, 720, 1500000⟩] [⟨640, 360, 500000⟩] 1 200 200 =
        (k : Int) ∧
      condAt 200 200
        (validLevels [⟨640, 360, 500000⟩, ⟨1280, 720, 1500000⟩] [⟨640, 360, 500000⟩] 1) k = true ∧
      ∀ j, j < k →
        condAt 200 200
          (validLevels [⟨640, 360, 500000⟩, ⟨1280, 720, 1500000⟩] [⟨640, 360, 500000⟩] 1) j =
          false :=
  selectCap_first_qualifying_position [⟨640, 360, 500000⟩, ⟨1280, 720, 1500000⟩]
    [⟨640, 360, 500000⟩] 1 200 200 0 (by decide)

/-- C4: for a rung list whose dimension pairs are non-decreasing, with empty
exclusion set and ceiling covering the whole list, `selectCap` returns a rung
that covers the target footprint on at least one axis; when no rung covers
it, the last index of the candidate list is returned. -/
theorem selectCap_monotonic_coverage (levels : List Level) (w h : Int)
    (hsort : List.Chain' (fun a b => a.width ≤ b.width ∧ a.height ≤ b.height) levels)
    (hne : levels ≠ []) :
    ((∃ l ∈ levels, covers w h l = true) →
      ∃ (k : Nat) (l : Level),
        selectCap levels [] ((levels.length : Int) - 1) w h = (k : Int) ∧
        levels[k]? = some l ∧ covers w h l = true) ∧
    ((∀ l ∈ levels, covers w h l = false) →
      selectCap levels [] ((levels.length : Int) - 1) w h = (levels.length : Int) - 1) := by
  have hvalid := validLevels_no_restriction levels
  constructor
  · intro hex
    obtain ⟨j, hj⟩ := gmlLoop_of_covers w h levels hex
    obtain ⟨l2, hl2, hcov2⟩ := condAt_covers w h levels j (gmlLoop_sound w h levels j hj)
    exact ⟨j, l2,
      selectCap_eq_of_gmlLoop_some levels [] ((levels.length : Int) - 1) w h j hne
        (by rw [hvalid]; exact hj),
      hl2, hcov2⟩
  · intro hnc
    have hnone := gmlLoop_none_of_no_cover w h levels hnc
    unfold selectCap getMaxLevelByMediaSize
    rw [if_neg (by simp [hne]), hvalid, hnone]
    have hlne2 : levels.isEmpty = false := by
      cases levels with
      | nil => exact absurd rfl hne
      | cons a t => rfl
    rw [hlne2]
    simp

/-- C4 witness: a sorted two-rung list where the larger rung covers the
150×150 target. -/
theorem selectCap_monotonic_coverage_witness :
    ∃ (k : Nat) (l : Level),
      selectCap [⟨100, 100, 1000⟩, ⟨200, 200, 2000⟩] [] 1 150 150 = (k : Int) ∧
      ([⟨100, 100, 1000⟩, ⟨200, 200, 2000⟩] : List Level)[k]? = some l ∧
      covers 150 150 l = true :=
  (selectCap_monotonic_coverage [⟨100, 100, 1000⟩, ⟨200, 200, 2000⟩] 150 150
      (List.chain'_pair.mpr (by decide)) (by decide)).1
    ⟨⟨200, 200, 2000⟩, by decide, by decide⟩

/-- C5: on rungs `[640×360@500k, 640×360@800k, 1280×720@1500k]` with target
640×360, empty exclusion set and ceiling 2, `selectCap` returns index 1 (the
800 kbps rung, the greatest-bandwidth representative of the sufficient
tier), not index 0. -/
theorem selectCap_greatest_bandwidth_tiebreak :
    selectCap [⟨640, 360, 500000⟩, ⟨640, 360, 800000⟩, ⟨1280, 720, 1500000⟩] [] 2 640 360 = 1 := by
  decide

/-! ### Helper lemmas on exclusion recording -/

lemma someM_pure {α : Type} (xs : List α) (p : α → Bool) :
    someM xs (fun x => Except.ok (p x)) = Except.ok (xs.any p) := by
  induction xs with
  | nil => rfl
  | cons x xs ih =>
    simp only [someM, List.any_cons]
    cases hx : p x
    · exact ih
    · rfl

lemma isLevelAllowedJs_some (restricted : List RestrictedLevel) (l : Level) :
    isLevelAllowedJs restricted (some l) = Except.ok (isLevelAllowed restricted l) := by
  unfold isLevelAllowedJs isLevelAllowed
  rw [someM_pure restricted fun r =>
    decide (l.bitrate = r.bitrate) && decide (l.width = r.width) && decide (l.height = r.height)]
  rfl

lemma onFps_in_range (levels : List Level) (rl : List RestrictedLevel) (i : Int)
    (l : Level) (hl : jsIndex levels i = some l) :
    onFpsDropLevelCapping levels rl i =
      Except.ok (if isLevelAllowed rl l then rl ++ [⟨l.width, l.height, l.bitrate⟩] else rl) := by
  unfold onFpsDropLevelCapping
  rw [hl]
  simp only [isLevelAllowedJs_some]
  cases ha : isLevelAllowed rl l <;> rfl

lemma onFps_out_of_range (levels : List Level) (rl : List RestrictedLevel) (i : Int)
    (hl : jsIndex levels i = none) :
    onFpsDropLevelCapping levels rl i = Except.error JsError.typeError := by
  unfold onFpsDropLevelCapping isLevelAllowedJs
  rw [hl]
  cases rl <;> rfl

lemma jsIndex_none_of_out (levels : List Level) (i : Int)
    (hout : i < 0 ∨ (levels.length : Int) ≤ i) : jsIndex levels i = none := by
  unfold jsIndex
  rcases hout with hneg | hge
  · rw [if_neg (by omega)]
  · by_cases h0 : 0 ≤ i
    · rw [if_pos h0]
      exact List.getElem?_eq_none (by omega)
    · rw [if_neg h0]

lemma recordDropState_none (levels : List Level) (rl : List RestrictedLevel) (i : Int)
    (hl : jsIndex levels i = none) : recordDropState levels rl i = rl := by
  unfold recordDropState
  rw [onFps_out_of_range levels rl i hl]

lemma recordDropState_some (levels : List Level) (rl : List RestrictedLevel) (i : Int)
    (l : Level) (hl : jsIndex levels i = some l) :
    recordDropState levels rl i =
      if isLevelAllowed rl l then rl ++ [⟨l.width, l.height, l.bitrate⟩] else rl := by
  unfold recordDropState
  rw [onFps_in_range levels rl i l hl]

lemma isLevelAllowed_not_mem (rl : List RestrictedLevel) (l : Level)
    (ha : isLevelAllowed rl l = true) :
    (⟨l.width, l.height, l.bitrate⟩ : RestrictedLevel) ∉ rl := by
  intro hmem
  have hany : rl.any (fun r =>
      decide (l.bitrate = r.bitrate) && decide (l.width = r.width) &&
        decide (l.height = r.height)) = true :=
    List.any_eq_true.mpr ⟨_, hmem, by simp⟩
  unfold isLevelAllowed at ha
  rw [hany] at ha
  simp at ha

lemma recordDropState_nodup (levels : List Level) (rl : List RestrictedLevel) (i : Int)
    (hnd : rl.Nodup) : (recordDropState levels rl i).Nodup := by
  cases hl : jsIndex levels i with
  | none => rw [recordDropState_none levels rl i hl]; exact hnd
  | some l =>
    rw [recordDropState_some levels rl i l hl]
    cases ha : isLevelAllowed rl l
    · rw [if_neg (by simp)]
      exact hnd
    · rw [if_pos rfl]
      rw [List.nodup_append]
      refine ⟨hnd, List.nodup_singleton _, ?_⟩
      intro a hmem hmem2
      rw [List.mem_singleton] at hmem2
      subst hmem2
      exact isLevelAllowed_not_mem rl l ha hmem

lemma recordDropsState_nodup (levels : List Level) (drops : List Int) :
    ∀ rl : List RestrictedLevel, rl.Nodup → (recordDropsState levels drops rl).Nodup := by
  induction drops with
  | nil => intro rl hrl; exact hrl
  | cons i is ih =>
    intro rl hrl
    exact ih _ (recordDropState_nodup levels rl i hrl)

/-! ### Claim theorems: exclusion recording -/

/-- C2, counterexample.  A one-rung list and drop index 5 (out of range):
the handler raises a `TypeError` (the rung lookup yields `undefined` and its
fields are then read), so it does not complete without error as claimed. -/
theorem drop_out_of_range_raises_ce :
    onFpsDropLevelCapping [⟨640, 360, 500000⟩] [] 5 = Except.error JsError.typeError := rfl

/-- C2, amended: for every rung list and every out-of-range dropped-rung
index, `onFpsDropLevelCapping` raises a `TypeError`; the raise happens
before the push, so nothing is appended to the exclusion set. -/
theorem drop_out_of_range_raises (levels : List Level) (restricted : List RestrictedLevel)
    (i : Int) (hout : i < 0 ∨ (levels.length : Int) ≤ i) :
    onFpsDropLevelCapping levels restricted i = Except.error JsError.typeError ∧
    recordDropState levels restricted i = restricted := by
  have hnone := jsIndex_none_of_out levels i hout
  exact ⟨onFps_out_of_range levels restricted i hnone,
    recordDropState_none levels restricted i hnone⟩

/-- C2 witness: the amended theorem at a concrete out-of-range drop with a
nonempty exclusion set. -/
theorem drop_out_of_range_raises_witness :
    onFpsDropLevelCapping [⟨640, 360, 500000⟩] [⟨100, 100, 777⟩] 7 =
      Except.error JsError.typeError ∧
    recordDropState [⟨640, 360, 500000⟩] [⟨100, 100, 777⟩] 7 = [⟨100, 100, 777⟩] :=
  drop_out_of_range_raises [⟨640, 360, 500000⟩] [⟨100, 100, 777⟩] 7 (Or.inr (by decide))

/-- C6: no two entries of the exclusion set share their
(bitrate, width, height) triple — every sequence of drop notifications
preserves distinctness — and recording the same in-range drop twice starting
from the empty set yields an exclusion set of size 1. -/
theorem exclusion_nodup_and_idempotent :
    (∀ (levels : List Level) (drops : List Int) (rl : List RestrictedLevel),
      rl.Nodup → (recordDropsState levels drops rl).Nodup) ∧
    (∀ (levels : List Level) (i : Int), 0 ≤ i → i < (levels.length : Int) →
      (recordDropsState levels [i, i] []).length = 1) := by
  constructor
  · intro levels drops rl hrl
    exact recordDropsState_nodup levels drops rl hrl
  · intro levels i h0 hlen
    have hin : jsIndex levels i = some (levels.get ⟨i.toNat, by omega⟩) := by
      unfold jsIndex
      rw [if_pos h0]
      exact List.getElem?_eq_getElem (by omega)
    set l := levels.get ⟨i.toNat, by omega⟩ with hldef
    have h1 : recordDropState levels [] i = [⟨l.width, l.height, l.bitrate⟩] := by
      rw [recordDropState_some levels [] i l hin]
      simp [isLevelAllowed_nil]
    have hnotallowed :
        isLevelAllowed [⟨l.width, l.height, l.bitrate⟩] l = false := by
      unfold isLevelAllowed
      simp
    have h2 : recordDropState levels [⟨l.width, l.height, l.bitrate⟩] i =
        [⟨l.width, l.height, l.bitrate⟩] := by
      rw [recordDropState_some levels [⟨l.width, l.height, l.bitrate⟩] i l hin, hnotallowed]
      simp
    simp only [recordDropsState]
    rw [h1, h2]
    rfl

/-- C6 witness: two identical in-range drops on a one-rung list leave a
single exclusion entry. -/
theorem exclusion_nodup_and_idempotent_witness :
    (recordDropsState [⟨640, 360, 500000⟩] [0, 0] []).length = 1 :=
  exclusion_nodup_and_idempotent.2 [⟨640, 360, 500000⟩] 0 (by decide) (by decide)

/-! ### Helper lemmas on measurement and the stateful operations -/

lemma getDimensions_snd (s : CapState) :
    (getDimensions s).2 = { s with clientRect := some (getDimensions s).1 } := by
  obtain ⟨hh, alc, fl, med, rl, cr, sc, ig, df⟩ := s
  cases cr <;> rfl

lemma mediaHeight_fst (s : CapState) :
    (mediaHeight s).1 = (getDimensions s).1.height * contentScaleFactor s := rfl

lemma mediaHeight_snd (s : CapState) : (mediaHeight s).2 = (getDimensions s).2 := rfl

lemma mediaWidth_gd (s : CapState) :
    mediaWidth (getDimensions s).2 =
      ((getDimensions s).1.width * contentScaleFactor s, (getDimensions s).2) := by
  rw [getDimensions_snd s]
  rfl

lemma getMaxLevel_snd_nil (s : CapState) (i : Int) (he : s.hls.levels = []) :
    (getMaxLevel s i).2 = s := by
  unfold getMaxLevel
  rw [he]
  rfl

lemma getMaxLevel_snd_nonempty (s : CapState) (i : Int)
    (he : s.hls.levels.isEmpty = false) :
    (getMaxLevel s i).2 = { s with clientRect := some (boundsRect s.media) } := by
  unfold getMaxLevel
  rw [he]
  simp only [Bool.false_eq_true, if_false]
  split <;> rfl

lemma getMaxLevel_fst_cache (s : CapState) (c : Option Rect) (i : Int) :
    (getMaxLevel { s with clientRect := c } i).1 = (getMaxLevel s i).1 := by
  obtain ⟨hh, alc, fl, med, rl, cr, sc, ig, df⟩ := s
  unfold getMaxLevel
  split <;> rfl

lemma computedCap_cache (s : CapState) (c : Option Rect) :
    computedCap { s with clientRect := c } = computedCap s :=
  getMaxLevel_fst_cache s c ((s.hls.levels.length : Int) - 1)

lemma detectPlayerSize_no_media (s : CapState) (hm : s.media = none) :
    detectPlayerSize s = (s, false) := by
  unfold detectPlayerSize
  rw [hm]

lemma detectPlayerSize_skip_zero (s : CapState) (m : MediaElement) (hm : s.media = some m)
    (hz : (getDimensions s).1.height * contentScaleFactor s ≤ 0 ∨
      (getDimensions s).1.width * contentScaleFactor s ≤ 0) :
    detectPlayerSize s = ({ s with clientRect := some (getDimensions s).1 }, false) := by
  unfold detectPlayerSize
  rw [hm]
  dsimp only
  rw [mediaHeight_fst, mediaHeight_snd]
  by_cases hhp : (getDimensions s).1.height * contentScaleFactor s > 0
  · have hwp : ¬ ((getDimensions s).1.width * contentScaleFactor s > 0) := by omega
    rw [if_pos hhp, mediaWidth_gd]
    dsimp only
    rw [if_neg hwp, getDimensions_snd, hm]
  · rw [if_neg hhp, getDimensions_snd, hm]

lemma detectPlayerSize_skip_empty (s : CapState) (m : MediaElement) (hm : s.media = some m)
    (hhp : 0 < (getDimensions s).1.height * contentScaleFactor s)
    (hwp : 0 < (getDimensions s).1.width * contentScaleFactor s)
    (hempty : s.hls.levels = []) :
    detectPlayerSize s = ({ s with clientRect := some (getDimensions s).1 }, false) := by
  unfold detectPlayerSize
  rw [hm]
  dsimp only
  rw [mediaHeight_fst, mediaHeight_snd, if_pos hhp, mediaWidth_gd]
  dsimp only
  rw [if_pos hwp, getDimensions_snd]
  dsimp only
  rw [if_pos (by rw [hempty]; rfl), hm]

lemma detectPlayerSize_active (s : CapState) (m : MediaElement) (hm : s.media = some m)
    (hhp : 0 < (getDimensions s).1.height * contentScaleFactor s)
    (hwp : 0 < (getDimensions s).1.width * contentScaleFactor s)
    (hne : s.hls.levels ≠ []) :
    detectPlayerSize s =
      ({ s with
          hls := { s.hls with autoLevelCapping := computedCap s },
          autoLevelCapping := some (computedCap s),
          clientRect := some (boundsRect s.media) },
        jsGtInf (computedCap s) s.autoLevelCapping && s.streamController) := by
  have hie : s.hls.levels.isEmpty = false := by
    cases hlv : s.hls.levels
    · exact absurd hlv hne
    · rfl
  have hlen : ¬ (s.hls.levels.length = 0) := by
    intro h0
    exact hne (List.length_eq_zero.mp h0)
  have hfst : (getMaxLevel { s with clientRect := some (getDimensions s).1 }
      ((s.hls.levels.length : Int) - 1)).1 = computedCap s :=
    getMaxLevel_fst_cache s (some (getDimensions s).1) ((s.hls.levels.length : Int) - 1)
  unfold detectPlayerSize
  rw [hm]
  dsimp only
  rw [mediaHeight_fst, mediaHeight_snd, if_pos hhp, mediaWidth_gd]
  dsimp only
  rw [if_pos hwp, getDimensions_snd]
  dsimp only
  rw [if_neg hlen]
  rw [hfst]
  rw [getMaxLevel_snd_nonempty { s with clientRect := some (getDimensions s).1 }
    ((s.hls.levels.length : Int) - 1) hie]
  dsimp only
  rw [hm]

/-! ### Claim theorems: state effects, clamping, the tick and attachment -/

/-- C3, counterexample.  At `stateC3` the cached measurement is 100×100
while the media measures 200×200: `getMaxLevel` invalidates and refreshes
the cache, so the controller state after the call differs from the state
before it — the selector is not free of side effects on the state. -/
theorem getMaxLevel_mutates_cache_ce : (getMaxLevel stateC3 0).2 ≠ stateC3 := by decide

/-- C3, amended: the only field of the controller state `getMaxLevel` can
change is the cached surface measurement (`clientRect`), which it
invalidates and refreshes; every other field is unchanged, and the returned
value does not depend on the cache's prior content. -/
theorem getMaxLevel_touches_only_cache (s : CapState) (i : Int) (c : Option Rect) :
    (getMaxLevel s i).2 = { s with clientRect := (getMaxLevel s i).2.clientRect } ∧
    (getMaxLevel { s with clientRect := c } i).1 = (getMaxLevel s i).1 := by
  constructor
  · cases hlv : s.hls.levels with
    | nil =>
      rw [getMaxLevel_snd_nil s i hlv]
    | cons a t =>
      have hie : s.hls.levels.isEmpty = false := by rw [hlv]; rfl
      rw [getMaxLevel_snd_nonempty s i hie]
  · exact getMaxLevel_fst_cache s c i

/-- C7: when the external hard ceiling (`hls.maxLevelCapping`) is set
(≠ −1), `getMaxLevel` returns the minimum of that ceiling and the
size-computed cap (`selectCap` over the rung list, exclusion set, ceiling
index and the density-scaled measured footprint); when it is −1 the
size-computed cap is returned unchanged.  The ceiling value is at least −1
(−1 is the "unset" sentinel). -/
theorem ceiling_clamp (s : CapState) (i : Int) (hmx : -1 ≤ s.hls.maxLevelCapping) :
    (s.hls.maxLevelCapping ≠ -1 →
      (getMaxLevel s i).1 =
        min s.hls.maxLevelCapping
          (selectCap s.hls.levels s.restrictedLevels i
            ((boundsRect s.media).width * contentScaleFactor s)
            ((boundsRect s.media).height * contentScaleFactor s))) ∧
    (s.hls.maxLevelCapping = -1 →
      (getMaxLevel s i).1 =
        selectCap s.hls.levels s.restrictedLevels i
          ((boundsRect s.media).width * contentScaleFactor s)
          ((boundsRect s.media).height * contentScaleFactor s)) := by
  cases hlv : s.hls.levels with
  | nil =>
    have hg : (getMaxLevel s i).1 = -1 := by
      unfold getMaxLevel
      rw [hlv]
      rfl
    constructor
    · intro hne
      rw [hg]
      have hsel : selectCap [] s.restrictedLevels i
          ((boundsRect s.media).width * contentScaleFactor s)
          ((boundsRect s.media).height * contentScaleFactor s) = -1 := rfl
      rw [hsel]
      omega
    · intro _
      rw [hg]
      rfl
  | cons a t =>
    have hsel : selectCap (a :: t) s.restrictedLevels i
        ((boundsRect s.media).width * contentScaleFactor s)
        ((boundsRect s.media).height * contentScaleFactor s) =
        getMaxLevelByMediaSize (validLevels (a :: t) s.restrictedLevels i)
          ((boundsRect s.media).width * contentScaleFactor s)
          ((boundsRect s.media).height * contentScaleFactor s) := rfl
    constructor
    · intro hne
      rw [hsel]
      unfold getMaxLevel
      rw [hlv]
      simp only [List.isEmpty_cons, Bool.false_eq_true, if_false]
      rw [if_pos hne]
      rfl
    · intro heq
      rw [hsel]
      unfold getMaxLevel
      rw [hlv]
      simp only [List.isEmpty_cons, Bool.false_eq_true, if_false]
      rw [if_neg (by simp [heq])]
      rfl

/-- C7 witness: at `stateC7` the ceiling is set to 1 while the
size-computed cap is 3, and the published cap is their minimum. -/
theorem ceiling_clamp_witness :
    (getMaxLevel stateC7 3).1 =
      min stateC7.hls.maxLevelCapping
        (selectCap stateC7.hls.levels stateC7.restrictedLevels 3
          ((boundsRect stateC7.media).width * contentScaleFactor stateC7)
          ((boundsRect stateC7.media).height * contentScaleFactor stateC7)) :=
  (ceiling_clamp stateC7 3 (by decide)).1 (by decide)

/-- C8: on a timer tick, `nextLevelSwitch` fires exactly when the tick is
active (media attached, positive scaled footprint on both axes, nonempty
rung list), the newly computed cap is numerically greater than the
previously published cap recorded by the controller, and the stream-switch
collaborator is registered; and whenever it fires, the new cap has already
been written to `hls.autoLevelCapping` (published) in the resulting state. -/
theorem tick_switch_notification (s : CapState) :
    ((detectPlayerSize s).2 = true ↔
      (s.media ≠ none ∧
       0 < (getDimensions s).1.height * contentScaleFactor s ∧
       0 < (getDimensions s).1.width * contentScaleFactor s ∧
       s.hls.levels ≠ [] ∧
       jsGtInf (computedCap s) s.autoLevelCapping = true ∧
       s.streamController = true)) ∧
    ((detectPlayerSize s).2 = true →
      (detectPlayerSize s).1.hls.autoLevelCapping = computedCap s ∧
      (detectPlayerSize s).1.autoLevelCapping = some (computedCap s)) := by
  cases hm : s.media with
  | none =>
    rw [detectPlayerSize_no_media s hm]
    constructor
    · constructor
      · intro hf; simp at hf
      · rintro ⟨hmed, _⟩; exact absurd rfl hmed
    · intro hf; simp at hf
  | some m =>
    by_cases hhp : 0 < (getDimensions s).1.height * contentScaleFactor s
    · by_cases hwp : 0 < (getDimensions s).1.width * contentScaleFactor s
      · by_cases hnil : s.hls.levels = []
        · rw [detectPlayerSize_skip_empty s m hm hhp hwp hnil]
          constructor
          · constructor
            · intro hf; simp at hf
            · rintro ⟨_, _, _, hlv, _⟩; exact absurd hnil hlv
          · intro hf; simp at hf
        · rw [detectPlayerSize_active s m hm hhp hwp hnil]
          constructor
          · constructor
            · intro hemit
              rw [Bool.and_eq_true] at hemit
              exact ⟨by simp, hhp, hwp, hnil, hemit.1, hemit.2⟩
            · rintro ⟨_, _, _, _, hgt, hsc⟩
              rw [Bool.and_eq_true]
              exact ⟨hgt, hsc⟩
          · intro _
            exact ⟨rfl, rfl⟩
      · rw [detectPlayerSize_skip_zero s m hm (Or.inr (by omega))]
        constructor
        · constructor
          · intro hf; simp at hf
          · rintro ⟨_, _, hw2, _⟩; exact absurd hw2 hwp
        · intro hf; simp at hf
    · rw [detectPlayerSize_skip_zero s m hm (Or.inl (by omega))]
      constructor
      · constructor
        · intro hf; simp at hf
        · rintro ⟨_, hh2, _⟩; exact absurd hh2 hhp
      · intro hf; simp at hf

/-- C8 witness: at `stateC8` the tick emits the notification, and the new
cap is published in the resulting state. -/
theorem tick_switch_notification_witness :
    (detectPlayerSize stateC8).1.hls.autoLevelCapping = computedCap stateC8 ∧
    (detectPlayerSize stateC8).1.autoLevelCapping = some (computedCap stateC8) :=
  (tick_switch_notification stateC8).2 (by decide)

/-- C9, counterexample.  At `stateC9` the media measures 0×0 and the
measurement cache is empty: the tick fills the cache, so the controller
state after the tick is NOT identical to the state before it — the tick is
not entirely state-preserving as claimed. -/
theorem zero_size_tick_changes_state_ce : (detectPlayerSize stateC9).1 ≠ stateC9 := by decide

/-- C9, amended: a tick whose density-scaled measured footprint is zero (or
non-positive) on either axis emits nothing and leaves the published cap and
every controller field unchanged EXCEPT the measurement cache, which is
filled with the measured box; the embedding is total, so no error is
raised on this path. -/
theorem zero_size_tick_skips (s : CapState) (m : MediaElement) (hm : s.media = some m)
    (hz : (getDimensions s).1.height * contentScaleFactor s ≤ 0 ∨
      (getDimensions s).1.width * contentScaleFactor s ≤ 0) :
    (detectPlayerSize s).2 = false ∧
    (detectPlayerSize s).1.hls = s.hls ∧
    (detectPlayerSize s).1.autoLevelCapping = s.autoLevelCapping ∧
    (detectPlayerSize s).1.firstLevel = s.firstLevel ∧
    (detectPlayerSize s).1.media = s.media ∧
    (detectPlayerSize s).1.restrictedLevels = s.restrictedLevels ∧
    (detectPlayerSize s).1.streamController = s.streamController ∧
    (detectPlayerSize s).1.ignoreDensity = s.ignoreDensity ∧
    (detectPlayerSize s).1.densityFactor = s.densityFactor ∧
    (detectPlayerSize s).1.clientRect = some (getDimensions s).1 := by
  rw [detectPlayerSize_skip_zero s m hm hz]
  exact ⟨rfl, rfl, rfl, rfl, rfl, rfl, rfl, rfl, rfl, rfl⟩

/-- C9 witness: the amended theorem at `stateC9`: the cap (7) and all other
fields survive the zero-size tick; only the cache is filled. -/
theorem zero_size_tick_skips_witness :
    (detectPlayerSize stateC9).2 = false ∧
    (detectPlayerSize stateC9).1.hls = stateC9.hls ∧
    (detectPlayerSize stateC9).1.autoLevelCapping = stateC9.autoLevelCapping ∧
    (detectPlayerSize stateC9).1.firstLevel = stateC9.firstLevel ∧
    (detectPlayerSize stateC9).1.media = stateC9.media ∧
    (detectPlayerSize stateC9).1.restrictedLevels = stateC9.restrictedLevels ∧
    (detectPlayerSize stateC9).1.streamController = stateC9.streamController ∧
    (detectPlayerSize stateC9).1.ignoreDensity = stateC9.ignoreDensity ∧
    (detectPlayerSize stateC9).1.densityFactor = stateC9.densityFactor ∧
    (detectPlayerSize stateC9).1.clientRect = some (getDimensions stateC9).1 :=
  zero_size_tick_skips stateC9 ⟨⟨0, 0, 0, 0, 0, 0⟩, 0, 0⟩ rfl (Or.inl (by decide))

/-- C10: attaching a non-video surface stores no media reference (the field
becomes `none`) and empties the measurement cache; every subsequent tick is
then a no-op (the state is a fixed point of the tick, no notification is
ever emitted) and the published cap never changes, for any number of ticks,
until a video element is attached. -/
theorem attach_non_video_blocks (s : CapState) (n : Nat) :
    (onMediaAttaching s AttachedMedia.nonVideo).media = none ∧
    (onMediaAttaching s AttachedMedia.nonVideo).clientRect = none ∧
    ticks n (onMediaAttaching s AttachedMedia.nonVideo) =
      onMediaAttaching s AttachedMedia.nonVideo ∧
    (ticks n (onMediaAttaching s AttachedMedia.nonVideo)).hls.autoLevelCapping =
      s.hls.autoLevelCapping ∧
    (detectPlayerSize (ticks n (onMediaAttaching s AttachedMedia.nonVideo))).2 = false := by
  have hmedia : (onMediaAttaching s AttachedMedia.nonVideo).media = none := rfl
  have hticks : ∀ k, ticks k (onMediaAttaching s AttachedMedia.nonVideo) =
      onMediaAttaching s AttachedMedia.nonVideo := by
    intro k
    induction k with
    | zero => rfl
    | succ k2 ih =>
      show ticks k2 (detectPlayerSize (onMediaAttaching s AttachedMedia.nonVideo)).1 = _
      rw [detectPlayerSize_no_media _ hmedia]
      exact ih
  refine ⟨rfl, rfl, hticks n, ?_, ?_⟩
  · rw [hticks n]
    rfl
  · rw [hticks n, detectPlayerSize_no_media _ hmedia]

end CapLevel
